import Mathlib

/-!
Verification of the support module `src/utils.ts` of landall/novelai-bot.

The module is embedded shallowly:
* JavaScript numbers are modelled by `JsNum`: NaN, the two infinities,
  negative zero, and finite values represented exactly as rationals
  (floating-point rounding and overflow of finite arithmetic are not
  modelled; every quantity appearing in the claims is small and exact).
* `closestMultiple` and `resizeInput` are direct transcriptions of the
  functions in `src/utils.ts`.
* `download` is modelled as a pure function of the request URL and of the
  (already number-converted) metadata of the HEAD response; its result is
  the list of HTTP actions performed together with either a raised error or
  the produced value.  Byte-level base64 decoding (`atob`) is abstracted:
  the data-URI success path returns the raw payload string.
* `calcAccessKey` is parametrised by the external libsodium primitives,
  which the repository only calls.
-/

/-- Model of a JavaScript number: NaN, +Infinity, -Infinity, negative zero,
or a finite value (represented exactly; `fin 0` is positive zero). -/
inductive JsNum where
  | nan : JsNum
  | pinf : JsNum
  | ninf : JsNum
  | nzero : JsNum
  | fin : ℚ → JsNum
  deriving DecidableEq

namespace JsNum

/-- JavaScript strict `<` comparison. -/
def jsLt : JsNum → JsNum → Bool
  | nan, _ => false
  | _, nan => false
  | pinf, _ => false
  | ninf, ninf => false
  | ninf, _ => true
  | nzero, pinf => true
  | nzero, ninf => false
  | nzero, nzero => false
  | nzero, fin p => decide (0 < p)
  | fin _, pinf => true
  | fin _, ninf => false
  | fin q, nzero => decide (q < 0)
  | fin q, fin p => decide (q < p)

/-- JavaScript `<=` comparison (false whenever an operand is NaN). -/
def jsLe : JsNum → JsNum → Bool
  | nan, _ => false
  | _, nan => false
  | ninf, _ => true
  | _, pinf => true
  | pinf, _ => false
  | _, ninf => false
  | nzero, nzero => true
  | nzero, fin p => decide (0 ≤ p)
  | fin q, nzero => decide (q ≤ 0)
  | fin q, fin p => decide (q ≤ p)

/-- JavaScript `>` comparison. -/
def jsGt (x y : JsNum) : Bool := jsLt y x

/-- JavaScript subtraction. -/
def jsSub : JsNum → JsNum → JsNum
  | nan, _ => nan
  | _, nan => nan
  | pinf, pinf => nan
  | pinf, _ => pinf
  | ninf, ninf => nan
  | ninf, _ => ninf
  | _, pinf => ninf
  | _, ninf => pinf
  | nzero, nzero => fin 0
  | nzero, fin p => if p = 0 then nzero else fin (-p)
  | fin q, nzero => fin q
  | fin q, fin p => fin (q - p)

/-- JavaScript multiplication. -/
def jsMul : JsNum → JsNum → JsNum
  | nan, _ => nan
  | _, nan => nan
  | pinf, pinf => pinf
  | pinf, ninf => ninf
  | ninf, pinf => ninf
  | ninf, ninf => pinf
  | pinf, nzero => nan
  | nzero, pinf => nan
  | ninf, nzero => nan
  | nzero, ninf => nan
  | pinf, fin q => if q = 0 then nan else if q < 0 then ninf else pinf
  | fin q, pinf => if q = 0 then nan else if q < 0 then ninf else pinf
  | ninf, fin q => if q = 0 then nan else if q < 0 then pinf else ninf
  | fin q, ninf => if q = 0 then nan else if q < 0 then pinf else ninf
  | nzero, nzero => fin 0
  | nzero, fin p => if p < 0 then fin 0 else nzero
  | fin q, nzero => if q < 0 then fin 0 else nzero
  | fin q, fin p => if (q = 0 ∧ p < 0) ∨ (p = 0 ∧ q < 0) then nzero else fin (q * p)

/-- JavaScript division. -/
def jsDiv : JsNum → JsNum → JsNum
  | nan, _ => nan
  | _, nan => nan
  | pinf, pinf => nan
  | pinf, ninf => nan
  | ninf, pinf => nan
  | ninf, ninf => nan
  | pinf, nzero => ninf
  | pinf, fin q => if q < 0 then ninf else pinf
  | ninf, nzero => pinf
  | ninf, fin q => if q < 0 then pinf else ninf
  | nzero, pinf => nzero
  | nzero, ninf => fin 0
  | nzero, nzero => nan
  | nzero, fin p => if p = 0 then nan else if p < 0 then fin 0 else nzero
  | fin q, pinf => if q < 0 then nzero else fin 0
  | fin q, ninf => if q < 0 then fin 0 else nzero
  | fin q, nzero => if q = 0 then nan else if q < 0 then pinf else ninf
  | fin q, fin p =>
      if p = 0 then (if q = 0 then nan else if q < 0 then ninf else pinf)
      else if q = 0 then (if p < 0 then nzero else fin 0)
      else fin (q / p)

/-- JavaScript `Math.floor`. -/
def jsFloor : JsNum → JsNum
  | nan => nan
  | pinf => pinf
  | ninf => ninf
  | nzero => nzero
  | fin q => fin (⌊q⌋ : ℚ)

/-- JavaScript `Math.ceil` (note `Math.ceil` of a value in `(-1, 0)` is `-0`). -/
def jsCeil : JsNum → JsNum
  | nan => nan
  | pinf => pinf
  | ninf => ninf
  | nzero => nzero
  | fin q => if ⌈q⌉ = 0 ∧ q < 0 then nzero else fin (⌈q⌉ : ℚ)

/-- JavaScript `Number.isNaN`. -/
def jsIsNaN : JsNum → Bool
  | nan => true
  | _ => false

/-- Truncation toward zero, as used by the JavaScript `%` operator. -/
def truncQ (q : ℚ) : ℤ := if 0 ≤ q then ⌊q⌋ else ⌈q⌉

/-- JavaScript `%` (remainder; sign follows the dividend). -/
def jsMod : JsNum → JsNum → JsNum
  | nan, _ => nan
  | _, nan => nan
  | pinf, _ => nan
  | ninf, _ => nan
  | x, pinf => x
  | x, ninf => x
  | nzero, nzero => nan
  | nzero, fin p => if p = 0 then nan else nzero
  | fin _, nzero => nan
  | fin q, fin p =>
      if p = 0 then nan
      else
        let r := q - p * (truncQ (q / p) : ℚ)
        if r = 0 ∧ q < 0 then nzero else fin r

/-- JavaScript strict equality with the literal `0` (`x === 0`); both zeros
compare equal to `0`. -/
def jsStrictEqZero : JsNum → Bool
  | nzero => true
  | fin q => decide (q = 0)
  | _ => false

end JsNum

open JsNum

/-- `MAX_OUTPUT_SIZE` from `src/utils.ts`. -/
def MAX_OUTPUT_SIZE : ℚ := 1048576

/-- `MAX_CONTENT_SIZE` from `src/utils.ts`. -/
def MAX_CONTENT_SIZE : ℚ := 10485760

/-- `closestMultiple(num, mult)` from `src/utils.ts`, transcribed
operation by operation (including the NaN check coming before the
non-positivity check). -/
def closestMultiple (num mult : JsNum) : JsNum :=
  let numInt := num
  let floor := jsMul (jsFloor (jsDiv numInt mult)) mult
  let ceil := jsMul (jsCeil (jsDiv numInt mult)) mult
  let closest := if jsLt (jsSub numInt floor) (jsSub ceil numInt) then floor else ceil
  if jsIsNaN closest then fin 0
  else if jsLe closest (fin 0) then mult else closest

/-- The `Size` record of `src/utils.ts`. -/
structure Size where
  width : JsNum
  height : JsNum
  deriving DecidableEq

/-- The inlined validity condition at the top of `resizeInput`:
`width % 64 === 0 && height % 64 === 0 && width * height <= MAX_OUTPUT_SIZE`. -/
def asIsCheck (width height : JsNum) : Bool :=
  jsStrictEqZero (jsMod width (fin 64)) && jsStrictEqZero (jsMod height (fin 64)) &&
    jsLe (jsMul width height) (fin MAX_OUTPUT_SIZE)

/-- `resizeInput(size)` from `src/utils.ts`.  The shared final block of the
source (the 1024 fallback) is bound once as `fallback`. -/
def resizeInput (size : Size) : Size :=
  let width := size.width
  let height := size.height
  if asIsCheck width height then ⟨width, height⟩
  else
    let aspectRatio := jsDiv width height
    let fallback : Size :=
      if jsGt aspectRatio (fin 1) then
        ⟨fin 1024, closestMultiple (jsDiv (fin 1024) aspectRatio) (fin 64)⟩
      else
        ⟨closestMultiple (jsMul (fin 1024) aspectRatio) (fin 64), fin 1024⟩
    if jsGt aspectRatio (fin 1) then
      let w2 := closestMultiple (jsMul (fin 512) aspectRatio) (fin 64)
      if jsLe (jsMul w2 (fin 512)) (fin MAX_OUTPUT_SIZE) then ⟨w2, fin 512⟩ else fallback
    else
      let h2 := closestMultiple (jsDiv (fin 512) aspectRatio) (fin 64)
      if jsLe (jsMul (fin 512) h2) (fin MAX_OUTPUT_SIZE) then ⟨fin 512, h2⟩ else fallback

/-- Pure description of `closestMultiple` on a finite input before the final
two checks: the candidate multiple chosen between floor and ceiling. -/
def cmRaw (x : ℚ) : ℚ :=
  if x - (⌊x / 64⌋ : ℚ) * 64 < (⌈x / 64⌉ : ℚ) * 64 - x then (⌊x / 64⌋ : ℚ) * 64
  else (⌈x / 64⌉ : ℚ) * 64

/-- Pure description of `closestMultiple` on a finite input. -/
def cmQ (x : ℚ) : ℚ :=
  if cmRaw x ≤ 0 then 64 else cmRaw x

/-- The output invariant claimed for `resizeInput`: both dimensions are
finite, strictly positive, integer multiples of 64, and the area is at most
`MAX_OUTPUT_SIZE`. -/
def sizeValidPos (s : Size) : Prop :=
  ∃ a b : ℚ, s.width = fin a ∧ s.height = fin b ∧ 0 < a ∧ 0 < b ∧
    (∃ i : ℤ, a = (i : ℚ) * 64) ∧ (∃ j : ℤ, b = (j : ℚ) * 64) ∧ a * b ≤ 1048576

/-- `ALLOWED_TYPES` from `src/utils.ts`. -/
def ALLOWED_TYPES : List String := ["image/jpeg", "image/png"]

/-- `s.startsWith(p)` (computed on the character lists). -/
def jsStartsWith (s p : String) : Bool := p.data.isPrefixOf s.data

/-- A character matched by the regular-expression class `\w`. -/
def isWordChar (c : Char) : Bool := c.isAlphanum || c = '_'

/-- A JavaScript line terminator (not matched by `.` in a regex). -/
def isJsLineTerminator (c : Char) : Bool :=
  c = Char.ofNat 10 || c = Char.ofNat 13 || c = Char.ofNat 0x2028 || c = Char.ofNat 0x2029

/-- The match of `url` against `/^data:(image\/\w+);base64,(.*)$/` in
`src/utils.ts`; `some (type, payload)` gives the two capture groups, `none`
models a `null` match.  `\w+` is greedy and `;` is not a word character, so
the match succeeds exactly when the string is `data:image/`, a nonempty run
of word characters, `;base64,`, and a remainder free of line terminators
(`.` does not match those). -/
def dataUriMatch (s : String) : Option (String × String) :=
  if jsStartsWith s "data:image/" then
    let rest := s.data.drop "data:image/".data.length
    let sub := rest.takeWhile isWordChar
    let after := rest.dropWhile isWordChar
    if sub ≠ [] && ";base64,".data.isPrefixOf after &&
        !((after.drop ";base64,".data.length).any isJsLineTerminator) then
      some ("image/" ++ String.mk sub, String.mk (after.drop ";base64,".data.length))
    else none
  else none

/-- One HTTP round trip performed by `download`. -/
inductive HttpAction where
  | headReq : HttpAction
  | getReq : HttpAction
  deriving DecidableEq

/-- The errors `download` can raise.  The first three are the `Error`s
thrown explicitly in `src/utils.ts`; `nullMatchTypeError` models the
TypeError raised by destructuring a `null` regex match. -/
inductive DlError where
  | unsupportedImageType : DlError
  | fileTooLarge : DlError
  | unsupportedFileType : DlError
  | nullMatchTypeError : DlError
  deriving DecidableEq

/-- A successful result of `download`: the decoded data-URI payload (the
base64 text, byte decoding abstracted) or the body of the network GET. -/
inductive DlOutcome where
  | dataBytes : String → DlOutcome
  | networkBody : DlOutcome
  deriving DecidableEq

/-- The metadata consulted by `download` on the network path:
`contentLength` is the already number-converted `+head['content-length']`,
`contentType` is `head['content-type']`. -/
structure HeadResponse where
  contentLength : JsNum
  contentType : String

/-- `download(ctx, url, headers)` from `src/utils.ts`, as a pure function of
the URL and the HEAD metadata.  The first component lists the HTTP requests
actually issued (in order); the second is the raised error or the result. -/
def download (url : String) (head : HeadResponse) :
    List HttpAction × Except DlError DlOutcome :=
  if jsStartsWith url "data:" then
    match dataUriMatch url with
    | none => ([], Except.error DlError.nullMatchTypeError)
    | some (type, payload) =>
      if !(ALLOWED_TYPES.contains type) then ([], Except.error DlError.unsupportedImageType)
      else ([], Except.ok (DlOutcome.dataBytes payload))
  else
    if jsGt head.contentLength (fin MAX_CONTENT_SIZE) then
      ([HttpAction.headReq], Except.error DlError.fileTooLarge)
    else if ALLOWED_TYPES.contains head.contentType then
      ([HttpAction.headReq], Except.error DlError.unsupportedFileType)
    else
      ([HttpAction.headReq, HttpAction.getReq], Except.ok DlOutcome.networkBody)

/-- `crypto_pwhash_SALTBYTES` of libsodium (16). -/
def crypto_pwhash_SALTBYTES : Nat := 16

/-- `crypto_pwhash_ALG_ARGON2ID13` of libsodium (2). -/
def crypto_pwhash_ALG_ARGON2ID13 : Nat := 2

/-- The external libsodium primitives used by `calcAccessKey`:
`crypto_generichash hashLength message` returns raw bytes, and
`crypto_pwhash outLength password salt opsLimit memLimit algorithm encoding`
returns the encoded hash (a string, modelled as a character list). -/
structure SodiumPrims where
  crypto_generichash : Nat → String → List UInt8
  crypto_pwhash : Nat → List UInt8 → List UInt8 → Nat → Nat → Nat → String → List Char

/-- The UTF-8 bytes of a string (`new Uint8Array(Buffer.from(s))`). -/
def utf8Bytes (s : String) : List UInt8 := s.toUTF8.toList

/-- `password.slice(0, 6)`: the first six characters, or the whole string
when it is shorter. -/
def jsSlice06 (password : String) : String := String.mk (password.data.take 6)

/-- `calcAccessKey(email, password)` from `src/utils.ts`, parametrised by
the libsodium primitives it invokes. -/
def calcAccessKey (sodium : SodiumPrims) (email password : String) : List Char :=
  (sodium.crypto_pwhash 64 (utf8Bytes password)
    (sodium.crypto_generichash crypto_pwhash_SALTBYTES
      (jsSlice06 password ++ email ++ "novelai_data_access_key"))
    2 2000000 crypto_pwhash_ALG_ARGON2ID13 "base64").take 64

/-- A concrete instantiation of the libsodium primitives used to witness the
key-derivation theorem: the hash bytes are zeros and the encoded hash is a
string of `A`s of the length a base64 encoding would have. -/
def dummySodium : SodiumPrims :=
  ⟨fun n _ => List.replicate n 0,
   fun n _ _ _ _ _ _ => List.replicate (4 * ((n + 2) / 3)) 'A'⟩

lemma jsDiv_fin_fin (q p : ℚ) (hp : p ≠ 0) (hq : q ≠ 0) :
    jsDiv (fin q) (fin p) = fin (q / p) := by
  simp [jsDiv, hp, hq]

lemma jsDiv_fin_pos (q p : ℚ) (hp : 0 < p) : jsDiv (fin q) (fin p) = fin (q / p) := by
  rcases eq_or_ne q 0 with h | h
  · subst h; simp [jsDiv, hp.ne', not_lt.mpr hp.le]
  · exact jsDiv_fin_fin q p hp.ne' h

lemma jsMul_fin512_left (q : ℚ) : jsMul (fin 512) (fin q) = fin (512 * q) := by
  norm_num [jsMul]

lemma jsMul_fin1024_left (q : ℚ) : jsMul (fin 1024) (fin q) = fin (1024 * q) := by
  norm_num [jsMul]

lemma jsMul_fin512_right (q : ℚ) : jsMul (fin q) (fin 512) = fin (q * 512) := by
  norm_num [jsMul]

lemma jsMul_fin64_right (q : ℚ) : jsMul (fin q) (fin 64) = fin (q * 64) := by
  norm_num [jsMul]

lemma jsMul_fin_nonneg (q p : ℚ) (hq : 0 ≤ q) (hp : 0 ≤ p) :
    jsMul (fin q) (fin p) = fin (q * p) := by
  have h1 : ¬ (q = 0 ∧ p < 0) := by rintro ⟨_, h⟩; exact absurd hp (not_le.mpr h)
  have h2 : ¬ (p = 0 ∧ q < 0) := by rintro ⟨_, h⟩; exact absurd hq (not_le.mpr h)
  simp [jsMul, h1, h2]

lemma jsLe_fin_fin (q p : ℚ) : jsLe (fin q) (fin p) = decide (q ≤ p) := rfl

lemma jsGt_fin_fin (q p : ℚ) : jsGt (fin q) (fin p) = decide (p < q) := rfl

lemma cmQ_pos (x : ℚ) : 0 < cmQ x := by
  unfold cmQ
  split
  · norm_num
  · next h => exact lt_of_not_ge h

lemma cmRaw_mult (x : ℚ) : ∃ k : ℤ, cmRaw x = (k : ℚ) * 64 := by
  unfold cmRaw
  split
  · exact ⟨⌊x / 64⌋, rfl⟩
  · exact ⟨⌈x / 64⌉, rfl⟩

lemma cmQ_mult (x : ℚ) : ∃ k : ℤ, cmQ x = (k : ℚ) * 64 := by
  unfold cmQ
  split
  · exact ⟨1, by norm_num⟩
  · exact cmRaw_mult x

lemma cmRaw_le_ceil (x : ℚ) : cmRaw x ≤ (⌈x / 64⌉ : ℚ) * 64 := by
  unfold cmRaw
  split
  · have h : ((⌊x / 64⌋ : ℤ) : ℚ) ≤ ((⌈x / 64⌉ : ℤ) : ℚ) := by
      exact_mod_cast Int.floor_le_ceil (x / 64)
    nlinarith
  · exact le_refl _

lemma cmQ_le (x : ℚ) (m : ℤ) (hm : 1 ≤ m) (hx : x ≤ (m : ℚ) * 64) :
    cmQ x ≤ (m : ℚ) * 64 := by
  have hm' : (1 : ℚ) ≤ (m : ℚ) := by exact_mod_cast hm
  have hceil : (⌈x / 64⌉ : ℚ) * 64 ≤ (m : ℚ) * 64 := by
    have h1 : x / 64 ≤ (m : ℚ) := by
      rw [div_le_iff₀ (by norm_num : (0:ℚ) < 64)]; linarith
    have h2 : ⌈x / 64⌉ ≤ m := Int.ceil_le.mpr h1
    have h3 : ((⌈x / 64⌉ : ℤ) : ℚ) ≤ (m : ℚ) := by exact_mod_cast h2
    nlinarith
  unfold cmQ
  split
  · linarith
  · exact le_trans (cmRaw_le_ceil x) hceil

lemma cmQ_of_nonpos (x : ℚ) (hx : x ≤ 0) : cmQ x = 64 := by
  have h1 : cmRaw x ≤ 0 := by
    refine le_trans (cmRaw_le_ceil x) ?_
    have h2 : ⌈x / 64⌉ ≤ (0 : ℤ) := by
      refine Int.ceil_le.mpr ?_
      push_cast
      rw [div_nonpos_iff]
      right
      exact ⟨hx, by norm_num⟩
    have h3 : ((⌈x / 64⌉ : ℤ) : ℚ) ≤ 0 := by exact_mod_cast h2
    nlinarith
  unfold cmQ
  rw [if_pos h1]

/-- `closestMultiple` at a finite input and multiple 64 computes `cmQ`. -/
lemma closestMultiple_fin (x : ℚ) : closestMultiple (fin x) (fin 64) = fin (cmQ x) := by
  have hdiv : jsDiv (fin x) (fin 64) = fin (x / 64) := jsDiv_fin_pos x 64 (by norm_num)
  simp only [closestMultiple, hdiv, jsFloor, jsMul_fin64_right]
  by_cases hc : ⌈x / 64⌉ = 0 ∧ x / 64 < 0
  · have hx : x < 0 := by
      have h := hc.2
      by_contra hpos
      push_neg at hpos
      exact absurd (div_nonneg hpos (by norm_num)) (not_le.mpr h)
    have hceq : jsCeil (fin (x / 64)) = nzero := by simp [jsCeil, hc]
    rw [hceq]
    have hmulz : jsMul nzero (fin 64) = nzero := by norm_num [jsMul]
    rw [hmulz]
    have hsub : jsSub nzero (fin x) = fin (-x) := by simp [jsSub, hx.ne]
    rw [hsub]
    rw [show jsSub (fin x) (fin ((⌊x / 64⌋ : ℚ) * 64)) = fin (x - (⌊x / 64⌋ : ℚ) * 64) from rfl]
    have hfl : (⌊x / 64⌋ : ℚ) * 64 ≤ 0 := by
      have h1 : ⌊x / 64⌋ ≤ 0 := Int.floor_nonpos (le_of_lt hc.2)
      have h2 : ((⌊x / 64⌋ : ℤ) : ℚ) ≤ 0 := by exact_mod_cast h1
      nlinarith
    rw [cmQ_of_nonpos x hx.le]
    by_cases hlt : x - (⌊x / 64⌋ : ℚ) * 64 < -x
    · simp [jsLt, hlt, jsIsNaN, jsLe_fin_fin, hfl]
    · simp [jsLt, hlt, jsIsNaN, jsLe]
  · have hceq : jsCeil (fin (x / 64)) = fin ((⌈x / 64⌉ : ℤ) : ℚ) := by
      simp only [jsCeil]
      rw [if_neg hc]
    rw [hceq, jsMul_fin64_right]
    rw [show jsSub (fin x) (fin ((⌊x / 64⌋ : ℚ) * 64)) = fin (x - (⌊x / 64⌋ : ℚ) * 64) from rfl]
    rw [show jsSub (fin ((⌈x / 64⌉ : ℚ) * 64)) (fin x) = fin ((⌈x / 64⌉ : ℚ) * 64 - x) from rfl]
    unfold cmQ cmRaw
    by_cases hlt : x - (⌊x / 64⌋ : ℚ) * 64 < (⌈x / 64⌉ : ℚ) * 64 - x
    · simp only [jsLt, hlt, decide_True, if_true, jsIsNaN, jsLe_fin_fin]
      by_cases hle : (⌊x / 64⌋ : ℚ) * 64 ≤ 0 <;> simp [jsLe_fin_fin, hle]
    · simp only [jsLt, hlt, decide_False, if_false, jsIsNaN, jsLe_fin_fin]
      by_cases hle : (⌈x / 64⌉ : ℚ) * 64 ≤ 0 <;> simp [jsLe_fin_fin, hle]

/-- A finite value that passes `width % 64 === 0` is an integer multiple
of 64. -/
lemma mult64_of_modZero (w : ℚ) (hw : jsStrictEqZero (jsMod (fin w) (fin 64)) = true) :
    ∃ i : ℤ, w = (i : ℚ) * 64 := by
  simp only [jsMod] at hw
  rw [if_neg (by norm_num : ¬ (64:ℚ) = 0)] at hw
  refine ⟨truncQ (w / 64), ?_⟩
  by_cases hcase : w - 64 * (truncQ (w / 64) : ℚ) = 0 ∧ w < 0
  · linarith [hcase.1]
  · rw [if_neg hcase] at hw
    simp only [jsStrictEqZero, decide_eq_true_eq] at hw
    linarith

/-- Step 2 / step 3 of `resizeInput` always produce a valid positive size
when the aspect ratio is a positive finite value. -/
lemma resize_posRatio (w h : ℚ) (hw : w ≠ 0) (hh : h ≠ 0) (hq : 0 < w / h)
    (hchk : asIsCheck (fin w) (fin h) = false) :
    sizeValidPos (resizeInput ⟨fin w, fin h⟩) := by
  have haspect : jsDiv (fin w) (fin h) = fin (w / h) := jsDiv_fin_fin w h hh hw
  set q := w / h with hqdef
  simp only [resizeInput, hchk, Bool.false_eq_true, if_false, haspect]
  by_cases h1 : 1 < q
  · have hgt : jsGt (fin q) (fin 1) = true := by simp [jsGt_fin_fin, h1]
    simp only [hgt, if_true, jsMul_fin512_left, closestMultiple_fin, jsMul_fin512_right,
      jsLe_fin_fin]
    by_cases harea : cmQ (512 * q) * 512 ≤ MAX_OUTPUT_SIZE
    · simp only [harea, decide_True, if_true]
      refine ⟨cmQ (512 * q), 512, rfl, rfl, cmQ_pos _, by norm_num, cmQ_mult _,
        ⟨8, by norm_num⟩, ?_⟩
      simpa [MAX_OUTPUT_SIZE] using harea
    · simp only [harea, decide_False, if_false]
      rw [jsDiv_fin_fin 1024 q hq.ne' (by norm_num), closestMultiple_fin]
      refine ⟨1024, cmQ (1024 / q), rfl, rfl, by norm_num, cmQ_pos _,
        ⟨16, by norm_num⟩, cmQ_mult _, ?_⟩
      have hb : cmQ (1024 / q) ≤ ((16 : ℤ) : ℚ) * 64 := by
        refine cmQ_le _ 16 (by norm_num) ?_
        have : (1024 : ℚ) / q ≤ 1024 := div_le_self (by norm_num) h1.le
        push_cast
        linarith
      push_cast at hb
      nlinarith
  · have hgt : jsGt (fin q) (fin 1) = false := by simp [jsGt_fin_fin, h1]
    push_neg at h1
    simp only [hgt, Bool.false_eq_true, if_false]
    rw [jsDiv_fin_fin 512 q hq.ne' (by norm_num)]
    simp only [closestMultiple_fin, jsMul_fin512_left, jsLe_fin_fin]
    by_cases harea : 512 * cmQ (512 / q) ≤ MAX_OUTPUT_SIZE
    · simp only [harea, decide_True, if_true]
      refine ⟨512, cmQ (512 / q), rfl, rfl, by norm_num, cmQ_pos _, ⟨8, by norm_num⟩,
        cmQ_mult _, ?_⟩
      simpa [MAX_OUTPUT_SIZE] using harea
    · simp only [harea, decide_False, if_false, jsMul_fin1024_left, closestMultiple_fin]
      refine ⟨cmQ (1024 * q), 1024, rfl, rfl, cmQ_pos _, by norm_num, cmQ_mult _,
        ⟨16, by norm_num⟩, ?_⟩
      have hb : cmQ (1024 * q) ≤ ((16 : ℤ) : ℚ) * 64 := by
        refine cmQ_le _ 16 (by norm_num) ?_
        push_cast
        nlinarith
      push_cast at hb
      nlinarith

lemma closestMultiple_nzero : closestMultiple nzero (fin 64) = fin 64 := by
  norm_num [closestMultiple, jsDiv, jsFloor, jsCeil, jsMul, jsSub, jsLt, jsLe, jsIsNaN]

lemma closestMultiple_pinf : closestMultiple pinf (fin 64) = pinf := by
  norm_num [closestMultiple, jsDiv, jsFloor, jsCeil, jsMul, jsSub, jsLt, jsLe, jsIsNaN]

lemma closestMultiple_ninf : closestMultiple ninf (fin 64) = fin 64 := by
  norm_num [closestMultiple, jsDiv, jsFloor, jsCeil, jsMul, jsSub, jsLt, jsLe, jsIsNaN]

lemma closestMultiple_fin0 : closestMultiple (fin 0) (fin 64) = fin 64 := by
  rw [closestMultiple_fin, cmQ_of_nonpos 0 (le_refl 0)]

lemma sizeValidPos_512_64 : sizeValidPos ⟨fin 512, fin 64⟩ :=
  ⟨512, 64, rfl, rfl, by norm_num, by norm_num, ⟨8, by norm_num⟩, ⟨1, by norm_num⟩, by norm_num⟩

lemma sizeValidPos_1024_64 : sizeValidPos ⟨fin 1024, fin 64⟩ :=
  ⟨1024, 64, rfl, rfl, by norm_num, by norm_num, ⟨16, by norm_num⟩, ⟨1, by norm_num⟩, by norm_num⟩

lemma sizeValidPos_64_1024 : sizeValidPos ⟨fin 64, fin 1024⟩ :=
  ⟨64, 1024, rfl, rfl, by norm_num, by norm_num, ⟨1, by norm_num⟩, ⟨16, by norm_num⟩, by norm_num⟩

/-- C1: for every input `Size` with positive finite dimensions, `resizeInput`
returns a `Size` whose dimensions are (positive) multiples of 64 with area at
most `MAX_OUTPUT_SIZE = 1048576`, across all three branches. -/
theorem resizeInput_positive_valid (w h : ℚ) (hw : 0 < w) (hh : 0 < h) :
    sizeValidPos (resizeInput ⟨fin w, fin h⟩) := by
  cases hchk : asIsCheck (fin w) (fin h) with
  | true =>
    have hres : resizeInput ⟨fin w, fin h⟩ = ⟨fin w, fin h⟩ := by
      simp [resizeInput, hchk]
    rw [hres]
    simp only [asIsCheck, Bool.and_eq_true] at hchk
    obtain ⟨⟨hmw, hmh⟩, harea⟩ := hchk
    obtain ⟨i, hi⟩ := mult64_of_modZero w hmw
    obtain ⟨j, hj⟩ := mult64_of_modZero h hmh
    rw [jsMul_fin_nonneg w h hw.le hh.le, jsLe_fin_fin, decide_eq_true_eq] at harea
    refine ⟨w, h, rfl, rfl, hw, hh, ⟨i, hi⟩, ⟨j, hj⟩, ?_⟩
    simpa [MAX_OUTPUT_SIZE] using harea
  | false =>
    exact resize_posRatio w h hw.ne' hh.ne' (div_pos hw hh) hchk

/-- Witness for C1 at the concrete input 512 × 512. -/
theorem resizeInput_positive_valid_witness :
    (0 : ℚ) < 512 ∧ sizeValidPos (resizeInput ⟨fin 512, fin 512⟩) :=
  ⟨by norm_num, resizeInput_positive_valid 512 512 (by norm_num) (by norm_num)⟩

/-- C4 counterexample: the degenerate input `{width: 0, height: 0}` passes
the as-is check (`0 % 64 === 0` and `0 * 0 <= MAX_OUTPUT_SIZE`) and is
returned unchanged, so the output is not a strictly positive valid size. -/
theorem resizeInput_degenerate_cex :
    ((0 : ℚ) ≤ 0 ∨ (0 : ℚ) ≤ 0) ∧
      resizeInput ⟨fin 0, fin 0⟩ = ⟨fin 0, fin 0⟩ ∧
      ¬ sizeValidPos (resizeInput ⟨fin 0, fin 0⟩) := by
  have hchk : asIsCheck (fin 0) (fin 0) = true := by
    norm_num [asIsCheck, jsMod, truncQ, jsStrictEqZero, jsMul, jsLe, MAX_OUTPUT_SIZE]
  have hres : resizeInput ⟨fin 0, fin 0⟩ = ⟨fin 0, fin 0⟩ := by
    simp [resizeInput, hchk]
  refine ⟨Or.inl (le_refl 0), hres, ?_⟩
  rintro ⟨a, b, ha, hb, hpa, -⟩
  rw [hres] at ha
  simp only [JsNum.fin.injEq] at ha
  rw [← ha] at hpa
  exact lt_irrefl 0 hpa

/-- C4 (amended): a degenerate input (zero or negative width or height) that
does not already pass the as-is check still produces a strictly positive
valid size; an input that passes the as-is check is returned unchanged (and
may be zero or negative, as the counterexample shows). -/
theorem resizeInput_degenerate_valid (w h : ℚ) (hdeg : w ≤ 0 ∨ h ≤ 0)
    (hchk : asIsCheck (fin w) (fin h) = false) :
    sizeValidPos (resizeInput ⟨fin w, fin h⟩) := by
  rcases eq_or_ne h 0 with hh0 | hh0
  · subst hh0
    rcases lt_trichotomy w 0 with hw | hw | hw
    · -- w < 0, h = 0 : aspect ratio is -Infinity
      have haspect : jsDiv (fin w) (fin 0) = ninf := by simp [jsDiv, hw.ne, hw]
      have hres : resizeInput ⟨fin w, fin 0⟩ = ⟨fin 512, fin 64⟩ := by
        simp only [resizeInput, hchk, Bool.false_eq_true, if_false, haspect]
        norm_num [jsGt, jsLt, jsDiv, closestMultiple_ninf, closestMultiple_nzero,
          jsMul, jsLe, MAX_OUTPUT_SIZE]
      rw [hres]; exact sizeValidPos_512_64
    · -- w = 0, h = 0 : contradicts the failed check
      subst hw
      have : asIsCheck (fin 0) (fin 0) = true := by
        norm_num [asIsCheck, jsMod, truncQ, jsStrictEqZero, jsMul, jsLe, MAX_OUTPUT_SIZE]
      rw [this] at hchk
      exact absurd hchk (by simp)
    · -- w > 0, h = 0 : aspect ratio is +Infinity
      have haspect : jsDiv (fin w) (fin 0) = pinf := by
        simp [jsDiv, hw.ne', not_lt.mpr hw.le]
      have hres : resizeInput ⟨fin w, fin 0⟩ = ⟨fin 1024, fin 64⟩ := by
        simp only [resizeInput, hchk, Bool.false_eq_true, if_false, haspect]
        norm_num [jsGt, jsLt, jsDiv, closestMultiple_pinf, closestMultiple_fin0,
          jsMul, jsLe, MAX_OUTPUT_SIZE]
      rw [hres]; exact sizeValidPos_1024_64
  · rcases eq_or_ne w 0 with hw0 | hw0
    · subst hw0
      rcases lt_or_gt_of_ne hh0 with hh | hh
      · -- w = 0, h < 0 : aspect ratio is -0
        have haspect : jsDiv (fin 0) (fin h) = nzero := by simp [jsDiv, hh0, hh]
        have hres : resizeInput ⟨fin 0, fin h⟩ = ⟨fin 512, fin 64⟩ := by
          simp only [resizeInput, hchk, Bool.false_eq_true, if_false, haspect]
          norm_num [jsGt, jsLt, jsDiv, closestMultiple_ninf, closestMultiple_nzero,
            jsMul, jsLe, MAX_OUTPUT_SIZE]
        rw [hres]; exact sizeValidPos_512_64
      · -- w = 0, h > 0 : aspect ratio is +0
        have haspect : jsDiv (fin 0) (fin h) = fin 0 := by
          simp [jsDiv, hh0, not_lt.mpr hh.le]
        have hres : resizeInput ⟨fin 0, fin h⟩ = ⟨fin 64, fin 1024⟩ := by
          simp only [resizeInput, hchk, Bool.false_eq_true, if_false, haspect]
          norm_num [jsGt, jsLt, jsDiv, closestMultiple_pinf, closestMultiple_fin0,
            jsMul, jsMul_fin1024_left, jsLe, MAX_OUTPUT_SIZE]
        rw [hres]; exact sizeValidPos_64_1024
    · rcases lt_trichotomy (w / h) 0 with hq | hq | hq
      · -- opposite signs : negative finite aspect ratio
        have haspect : jsDiv (fin w) (fin h) = fin (w / h) := jsDiv_fin_fin w h hh0 hw0
        have hgt : jsGt (fin (w / h)) (fin 1) = false := by
          simp [jsGt_fin_fin]; linarith
        have hdivneg : (512 : ℚ) / (w / h) ≤ 0 := by
          rw [div_nonpos_iff]; left; exact ⟨by norm_num, hq.le⟩
        have hres : resizeInput ⟨fin w, fin h⟩ = ⟨fin 512, fin 64⟩ := by
          simp only [resizeInput, hchk, Bool.false_eq_true, if_false, haspect, hgt]
          rw [jsDiv_fin_fin 512 (w / h) hq.ne (by norm_num), closestMultiple_fin,
            cmQ_of_nonpos _ hdivneg]
          norm_num [jsMul, jsLe, MAX_OUTPUT_SIZE]
        rw [hres]; exact sizeValidPos_512_64
      · exact absurd hq (div_ne_zero hw0 hh0)
      · exact resize_posRatio w h hw0 hh0 hq hchk

/-- Witness for C4 (amended) at the concrete degenerate input 100 × 0. -/
theorem resizeInput_degenerate_valid_witness :
    ((100 : ℚ) ≤ 0 ∨ (0 : ℚ) ≤ 0) ∧ asIsCheck (fin 100) (fin 0) = false ∧
      sizeValidPos (resizeInput ⟨fin 100, fin 0⟩) := by
  have hchk : asIsCheck (fin 100) (fin 0) = false := by
    norm_num [asIsCheck, jsMod, truncQ, jsStrictEqZero]
  exact ⟨Or.inr (le_refl 0), hchk,
    resizeInput_degenerate_valid 100 0 (Or.inr (le_refl 0)) hchk⟩

/-- C3 counterexample: 96 lies exactly halfway between the consecutive
multiples 64 and 128 of 64, yet `closestMultiple(96, 64)` returns the upper
multiple 128, not the lower one. -/
theorem closestMultiple_tie_cex :
    (96 : ℚ) - (⌊(96 : ℚ) / 64⌋ : ℚ) * 64 = (⌈(96 : ℚ) / 64⌉ : ℚ) * 64 - 96 ∧
    (⌊(96 : ℚ) / 64⌋ : ℚ) * 64 ≠ (⌈(96 : ℚ) / 64⌉ : ℚ) * 64 ∧
    closestMultiple (fin 96) (fin 64) = fin 128 ∧
    closestMultiple (fin 96) (fin 64) ≠ fin ((⌊(96 : ℚ) / 64⌋ : ℚ) * 64) := by
  have hf : ⌊(96 : ℚ) / 64⌋ = 1 := by norm_num
  have hc : ⌈(96 : ℚ) / 64⌉ = 2 := by
    rw [Int.ceil_eq_iff]; norm_num
  have h96 : closestMultiple (fin 96) (fin 64) = fin 128 := by
    rw [closestMultiple_fin]
    unfold cmQ cmRaw
    rw [hf, hc]
    norm_num
  refine ⟨by rw [hf, hc]; norm_num, by rw [hf, hc]; norm_num, h96, ?_⟩
  rw [h96, hf]
  norm_num

/-- C3 (amended): for every finite positive value lying exactly halfway
between two distinct consecutive multiples of 64, `closestMultiple(v, 64)`
returns the UPPER multiple (the strict `<` sends ties to `ceil`). -/
theorem closestMultiple_tie_ceil (x : ℚ) (hx : 0 < x)
    (htie : x - (⌊x / 64⌋ : ℚ) * 64 = (⌈x / 64⌉ : ℚ) * 64 - x)
    (_hne : (⌊x / 64⌋ : ℚ) * 64 ≠ (⌈x / 64⌉ : ℚ) * 64) :
    closestMultiple (fin x) (fin 64) = fin ((⌈x / 64⌉ : ℚ) * 64) := by
  rw [closestMultiple_fin]
  unfold cmQ cmRaw
  have hlt : ¬ (x - (⌊x / 64⌋ : ℚ) * 64 < (⌈x / 64⌉ : ℚ) * 64 - x) := by
    rw [htie]; exact lt_irrefl _
  rw [if_neg hlt]
  have hcpos : 0 < (⌈x / 64⌉ : ℚ) * 64 := by
    have h1 : (0 : ℤ) < ⌈x / 64⌉ := Int.ceil_pos.mpr (div_pos hx (by norm_num))
    have h2 : (0 : ℚ) < ((⌈x / 64⌉ : ℤ) : ℚ) := by exact_mod_cast h1
    nlinarith
  rw [if_neg (not_le.mpr hcpos)]

/-- Witness for C3 (amended) at the halfway point 96. -/
theorem closestMultiple_tie_ceil_witness :
    (0 : ℚ) < 96 ∧ closestMultiple (fin 96) (fin 64) = fin ((⌈(96 : ℚ) / 64⌉ : ℚ) * 64) := by
  have hf : ⌊(96 : ℚ) / 64⌋ = 1 := by norm_num
  have hc : ⌈(96 : ℚ) / 64⌉ = 2 := by
    rw [Int.ceil_eq_iff]; norm_num
  exact ⟨by norm_num, closestMultiple_tie_ceil 96 (by norm_num)
    (by rw [hf, hc]; norm_num) (by rw [hf, hc]; norm_num)⟩

/-- C5: `resizeInput({1000, 100})` fails the as-is check, the landscape 512
branch produces width 5120 whose area exceeds the ceiling, and the 1024
fallback returns `{1024, 128}` with height `closestMultiple(102.4, 64) = 128`. -/
theorem resizeInput_1000_100 :
    asIsCheck (fin 1000) (fin 100) = false ∧
    closestMultiple (jsMul (fin 512) (jsDiv (fin 1000) (fin 100))) (fin 64) = fin 5120 ∧
    ¬ ((5120 : ℚ) * 512 ≤ MAX_OUTPUT_SIZE) ∧
    closestMultiple (jsDiv (fin 1024) (jsDiv (fin 1000) (fin 100))) (fin 64) = fin 128 ∧
    resizeInput ⟨fin 1000, fin 100⟩ = ⟨fin 1024, fin 128⟩ := by
  have hdiv : jsDiv (fin 1000) (fin 100) = fin 10 := by norm_num [jsDiv]
  have hchk : asIsCheck (fin 1000) (fin 100) = false := by
    norm_num [asIsCheck, jsMod, truncQ, jsStrictEqZero]
  have h5120 : closestMultiple (jsMul (fin 512) (fin 10)) (fin 64) = fin 5120 := by
    rw [jsMul_fin512_left, closestMultiple_fin]
    norm_num
    unfold cmQ cmRaw
    norm_num
  have hc2 : ⌈(8 : ℚ) / 5⌉ = 2 := by
    rw [Int.ceil_eq_iff]; norm_num
  have h128 : closestMultiple (jsDiv (fin 1024) (fin 10)) (fin 64) = fin 128 := by
    rw [jsDiv_fin_fin 1024 10 (by norm_num) (by norm_num), closestMultiple_fin]
    unfold cmQ cmRaw
    norm_num [hc2]
  have hres : resizeInput ⟨fin 1000, fin 100⟩ = ⟨fin 1024, fin 128⟩ := by
    simp only [resizeInput, hchk, Bool.false_eq_true, if_false, hdiv]
    have hgt : jsGt (fin (10 : ℚ)) (fin 1) = true := by norm_num [jsGt_fin_fin]
    simp only [hgt, if_true, h5120]
    norm_num [jsMul_fin512_right, jsLe_fin_fin, MAX_OUTPUT_SIZE, h128]
  exact ⟨hchk, by rw [hdiv]; exact h5120, by norm_num [MAX_OUTPUT_SIZE],
    by rw [hdiv]; exact h128, hres⟩

/-- C8: `closestMultiple(NaN, 64)` returns the literal 0 (the NaN
short-circuit runs before the `<= 0` forcing rule, so 0 is not mapped
to 64). -/
theorem closestMultiple_nan_zero :
    closestMultiple nan (fin 64) = fin 0 ∧ closestMultiple nan (fin 64) ≠ fin 64 := by
  have h : closestMultiple nan (fin 64) = fin 0 := by
    norm_num [closestMultiple, jsDiv, jsFloor, jsCeil, jsMul, jsSub, jsLt, jsLe, jsIsNaN]
  refine ⟨h, ?_⟩
  rw [h]
  norm_num

/-- C2: on the network path, when the size check passes, the type check is
inverted: `download` raises the unsupported-type error exactly when the
reported content type IS in the allow-list, and a content type outside the
allow-list passes the check (the GET is issued). -/
theorem download_inverted_type_check (url : String) (cl : JsNum) (ct : String)
    (hurl : jsStartsWith url "data:" = false)
    (hsize : jsGt cl (fin MAX_CONTENT_SIZE) = false) :
    ((download url ⟨cl, ct⟩).2 = Except.error DlError.unsupportedFileType ↔
      ct ∈ ALLOWED_TYPES) ∧
    (ct ∉ ALLOWED_TYPES →
      download url ⟨cl, ct⟩ =
        ([HttpAction.headReq, HttpAction.getReq], Except.ok DlOutcome.networkBody)) := by
  simp only [download, hurl, Bool.false_eq_true, if_false, hsize]
  by_cases hmem : ct ∈ ALLOWED_TYPES
  · have hc : ALLOWED_TYPES.contains ct = true := List.elem_eq_true_of_mem hmem
    simp [hc, hmem]
  · have hc : ALLOWED_TYPES.contains ct = false := by
      cases h : ALLOWED_TYPES.contains ct
      · rfl
      · exact absurd (List.mem_of_elem_eq_true h) hmem
    simp [hc, hmem]

/-- Witness for C2 at a network URL whose HEAD reports an allow-listed
content type. -/
theorem download_inverted_type_check_witness :
    jsStartsWith "http://example.com/a.png" "data:" = false ∧
    jsGt (fin 0) (fin MAX_CONTENT_SIZE) = false ∧
    ((download "http://example.com/a.png" ⟨fin 0, "image/png"⟩).2 =
        Except.error DlError.unsupportedFileType ↔ "image/png" ∈ ALLOWED_TYPES) := by
  have h1 : jsStartsWith "http://example.com/a.png" "data:" = false := by decide
  have h2 : jsGt (fin 0) (fin MAX_CONTENT_SIZE) = false := by
    norm_num [jsGt, jsLt, MAX_CONTENT_SIZE]
  exact ⟨h1, h2, (download_inverted_type_check _ _ _ h1 h2).1⟩

/-- C6: a network URL whose HEAD reports a content length strictly above
`MAX_CONTENT_SIZE` fails with the too-large error and the GET is never
issued (the action trace is just the HEAD request). -/
theorem download_too_large (url : String) (cl : ℚ) (ct : String)
    (hurl : jsStartsWith url "data:" = false)
    (hsize : MAX_CONTENT_SIZE < cl) :
    download url ⟨fin cl, ct⟩ = ([HttpAction.headReq], Except.error DlError.fileTooLarge) := by
  have hgt : jsGt (fin cl) (fin MAX_CONTENT_SIZE) = true := by
    simp [jsGt_fin_fin, hsize]
  simp [download, hurl, hgt]

/-- Witness for C6 at content length 10485761. -/
theorem download_too_large_witness :
    jsStartsWith "http://example.com/big.png" "data:" = false ∧
    MAX_CONTENT_SIZE < (10485761 : ℚ) ∧
    download "http://example.com/big.png" ⟨fin 10485761, "image/png"⟩ =
      ([HttpAction.headReq], Except.error DlError.fileTooLarge) := by
  have h1 : jsStartsWith "http://example.com/big.png" "data:" = false := by decide
  have h2 : MAX_CONTENT_SIZE < (10485761 : ℚ) := by norm_num [MAX_CONTENT_SIZE]
  exact ⟨h1, h2, download_too_large _ _ _ h1 h2⟩

/-- C9: the size check strictly precedes the type check: with an oversized
content length AND an allow-listed content type, `download` fails with the
too-large error, never with the unsupported-type error. -/
theorem download_size_precedes_type (url : String) (cl : ℚ) (ct : String)
    (hurl : jsStartsWith url "data:" = false)
    (hsize : MAX_CONTENT_SIZE < cl) (_hmem : ct ∈ ALLOWED_TYPES) :
    (download url ⟨fin cl, ct⟩).2 = Except.error DlError.fileTooLarge ∧
    (download url ⟨fin cl, ct⟩).2 ≠ Except.error DlError.unsupportedFileType := by
  have hgt : jsGt (fin cl) (fin MAX_CONTENT_SIZE) = true := by
    simp [jsGt_fin_fin, hsize]
  constructor <;> simp [download, hurl, hgt]

/-- Witness for C9: oversized content length with allow-listed type
`image/jpeg`. -/
theorem download_size_precedes_type_witness :
    jsStartsWith "http://example.com/huge.jpg" "data:" = false ∧
    MAX_CONTENT_SIZE < (20000000 : ℚ) ∧ "image/jpeg" ∈ ALLOWED_TYPES ∧
    (download "http://example.com/huge.jpg" ⟨fin 20000000, "image/jpeg"⟩).2 =
      Except.error DlError.fileTooLarge := by
  have h1 : jsStartsWith "http://example.com/huge.jpg" "data:" = false := by decide
  have h2 : MAX_CONTENT_SIZE < (20000000 : ℚ) := by norm_num [MAX_CONTENT_SIZE]
  have h3 : "image/jpeg" ∈ ALLOWED_TYPES := by decide
  exact ⟨h1, h2, h3, (download_size_precedes_type _ _ _ h1 h2 h3).1⟩

/-- C10: a source starting with `data:` that does not match the data-URI
pattern fails with the TypeError of destructuring a `null` match, not with
the unsupported-type error; no HTTP request is made. -/
theorem download_data_null_match (url : String) (head : HeadResponse)
    (hurl : jsStartsWith url "data:" = true)
    (hmatch : dataUriMatch url = none) :
    download url head = ([], Except.error DlError.nullMatchTypeError) ∧
    (download url head).2 ≠ Except.error DlError.unsupportedImageType := by
  constructor <;> simp [download, hurl, hmatch]

/-- Witness for C10 at the non-image data URI `data:text/plain;base64,AAAA`. -/
theorem download_data_null_match_witness :
    jsStartsWith "data:text/plain;base64,AAAA" "data:" = true ∧
    dataUriMatch "data:text/plain;base64,AAAA" = none ∧
    download "data:text/plain;base64,AAAA" ⟨fin 0, ""⟩ =
      ([], Except.error DlError.nullMatchTypeError) := by
  have h1 : jsStartsWith "data:text/plain;base64,AAAA" "data:" = true := by decide
  have h2 : dataUriMatch "data:text/plain;base64,AAAA" = none := by decide
  exact ⟨h1, h2, (download_data_null_match _ _ h1 h2).1⟩

/-- C7: `calcAccessKey` is a deterministic pure function of its inputs whose
value is the first 64 characters of the base64 Argon2id-13 hash (output
length 64 bytes, ops limit 2, memory limit 2000000) of the password, salted
with the keyless generichash of `password.slice(0,6) + email +
"novelai_data_access_key"`; whenever the primitive returns a base64 encoding
(88 characters for 64 bytes), the result has exactly 64 characters, and a
password shorter than 6 characters is used whole in the salt input. -/
theorem calcAccessKey_spec (sodium : SodiumPrims)
    (hb64 : ∀ n pw salt ops mem alg,
      (sodium.crypto_pwhash n pw salt ops mem alg "base64").length = 4 * ((n + 2) / 3))
    (email password : String) :
    (calcAccessKey sodium email password).length = 64 ∧
    calcAccessKey sodium email password =
      (sodium.crypto_pwhash 64 (utf8Bytes password)
        (sodium.crypto_generichash 16
          (jsSlice06 password ++ email ++ "novelai_data_access_key"))
        2 2000000 2 "base64").take 64 ∧
    (password.length ≤ 6 → jsSlice06 password = password) := by
  refine ⟨?_, rfl, ?_⟩
  · unfold calcAccessKey
    rw [List.length_take, hb64]
    decide
  · intro hlen
    unfold jsSlice06
    rw [List.take_of_length_le hlen]

/-- Witness for C7 with a concrete primitive instantiation and concrete
credentials. -/
theorem calcAccessKey_spec_witness :
    (calcAccessKey dummySodium "user@example.com" "hunter2").length = 64 :=
  (calcAccessKey_spec dummySodium
    (fun n pw salt ops mem alg => by simp [dummySodium])
    "user@example.com" "hunter2").1
